import Mathlib

/-!
Shallow embedding of `src/fetcher.py` and `src/validators.py` from the
web-scraper repository, together with theorems checking the repository's
specification against the code.

Fetcher model: one call to `requests.get` plus `raise_for_status` is modelled
by a `Transport` outcome supplied by an environment `env : Nat → Transport`
(the outcome of the zero-based attempt `i`).  Exceptions raised by the
attempt are modelled by `Exc`; the `except` clauses of the Python code are
modelled by an ordered chain of class tests, with an explicit `raised`
result when no clause matches (so "the function never raises" is a real
statement, not a typing triviality).  Sleep durations are tracked as exact
rationals.
-/

set_option autoImplicit false

namespace Scraper

/-- Outcome of one transport-level attempt (`requests.get`): either a
response with a status code and body text, or one of the exceptions
`requests` can raise (`Timeout`, `ConnectionError`, or any other
`RequestException`). -/
inductive Transport where
  | response (status : Nat) (text : String)
  | timeoutExc
  | connectionExc
  | otherExc
deriving Repr, DecidableEq

/-- An exception in flight inside `fetch_html`'s `try` block. `httpE` is the
`HTTPError` raised by `response.raise_for_status()` and carries the status
code of `e.response`. -/
inductive Exc where
  | timeoutE
  | httpE (status : Nat)
  | connE
  | otherReqE
deriving Repr, DecidableEq

/-- `isinstance(e, requests.exceptions.Timeout)`. -/
def isTimeout : Exc → Bool
  | .timeoutE => true
  | _ => false

/-- `isinstance(e, requests.exceptions.HTTPError)`. -/
def isHTTPError : Exc → Bool
  | .httpE _ => true
  | _ => false

/-- `isinstance(e, requests.exceptions.ConnectionError)`. -/
def isConnectionError : Exc → Bool
  | .connE => true
  | _ => false

/-- `isinstance(e, requests.exceptions.RequestException)`: every transport
exception raised by `requests` is a subclass of `RequestException`. -/
def isRequestException : Exc → Bool
  | _ => true

/-- `e.response.status_code` for an `HTTPError`; unused for other kinds. -/
def excStatus : Exc → Nat
  | .httpE s => s
  | _ => 0

/-- Run the body of the `try` block on one transport outcome:
`requests.get` either raises, or yields a response on which
`raise_for_status()` raises `HTTPError` exactly when the status is in
400..599; otherwise `response.text` is returned. -/
def runAttempt : Transport → String ⊕ Exc
  | .response status text =>
      if 400 ≤ status ∧ status < 600 then .inr (.httpE status) else .inl text
  | .timeoutExc => .inr .timeoutE
  | .connectionExc => .inr .connE
  | .otherExc => .inr .otherReqE

/-- Result of the whole Python function: a normal `return` of
`Optional[str]`, or an uncaught exception propagating to the caller. -/
inductive Outcome where
  | ret (v : Option String)
  | raised (e : Exc)
deriving Repr, DecidableEq

/-- `Outcome.isRet o` holds when `o` is a normal return (no exception
escaped). -/
def Outcome.isRet : Outcome → Bool
  | .ret _ => true
  | .raised _ => false

/-- Observable trace of one `fetch_html` call: the returned value (or
escaped exception), the number of `requests.get` calls made, and the list
of `time.sleep` durations in order. -/
structure FetchRun where
  outcome : Outcome
  attemptsMade : Nat
  sleeps : List ℚ
deriving Repr, DecidableEq

/-- `backoff_factor * (2 ** attempt)`, the sleep expression of
`fetch_html`. -/
def backoffDelay (backoff_factor : ℚ) (attempt : Nat) : ℚ :=
  backoff_factor * 2 ^ attempt

/-- The `for attempt in range(retries)` loop of `fetch_html`, entered at a
given attempt index with the sleeps recorded so far.  Each `except` clause
of the source is a class test in the chain; an exception matching no clause
propagates as `raised`.  Falling off the loop is the final `return None`. -/
def fetchGo (env : Nat → Transport) (retries : Nat) (backoff_factor : ℚ)
    (attempt : Nat) (sleeps : List ℚ) : FetchRun :=
  if h : attempt < retries then
    match runAttempt (env attempt) with
    | .inl text => ⟨.ret (some text), attempt + 1, sleeps⟩
    | .inr e =>
      if isTimeout e then
        if attempt < retries - 1 then
          fetchGo env retries backoff_factor (attempt + 1)
            (sleeps ++ [backoffDelay backoff_factor attempt])
        else ⟨.ret none, attempt + 1, sleeps⟩
      else if isHTTPError e then
        if 400 ≤ excStatus e ∧ excStatus e < 500 then
          ⟨.ret none, attempt + 1, sleeps⟩
        else if attempt < retries - 1 then
          fetchGo env retries backoff_factor (attempt + 1)
            (sleeps ++ [backoffDelay backoff_factor attempt])
        else ⟨.ret none, attempt + 1, sleeps⟩
      else if isConnectionError e then
        if attempt < retries - 1 then
          fetchGo env retries backoff_factor (attempt + 1)
            (sleeps ++ [backoffDelay backoff_factor attempt])
        else ⟨.ret none, attempt + 1, sleeps⟩
      else if isRequestException e then
        ⟨.ret none, attempt + 1, sleeps⟩
      else
        ⟨.raised e, attempt + 1, sleeps⟩
  else
    ⟨.ret none, attempt, sleeps⟩
termination_by retries - attempt
decreasing_by all_goals omega

/-- `fetch_html(url, retries, timeout, backoff_factor)`: run the loop from
attempt 0 with no sleeps recorded. -/
def fetch_html (env : Nat → Transport) (retries : Nat)
    (backoff_factor : ℚ) : FetchRun :=
  fetchGo env retries backoff_factor 0 []

/-- The `for attempt in range(retries)` loop of `fetch_html_with_session`:
a single `except RequestException` clause treats every failure alike, the
sleep constant is the literal `0.3`, and the give-up test is
`attempt == retries - 1`. -/
def fetchSessionGo (env : Nat → Transport) (retries : Nat)
    (attempt : Nat) (sleeps : List ℚ) : FetchRun :=
  if h : attempt < retries then
    match runAttempt (env attempt) with
    | .inl text => ⟨.ret (some text), attempt + 1, sleeps⟩
    | .inr e =>
      if isRequestException e then
        if attempt = retries - 1 then ⟨.ret none, attempt + 1, sleeps⟩
        else
          fetchSessionGo env retries (attempt + 1)
            (sleeps ++ [(3 / 10 : ℚ) * 2 ^ attempt])
      else
        ⟨.raised e, attempt + 1, sleeps⟩
  else
    ⟨.ret none, attempt, sleeps⟩
termination_by retries - attempt
decreasing_by all_goals omega

/-- `fetch_html_with_session(session, url, retries, timeout)`. -/
def fetch_html_with_session (env : Nat → Transport) (retries : Nat) :
    FetchRun :=
  fetchSessionGo env retries 0 []

/-- A transport outcome on which `fetch_html` retries: `Timeout`,
`ConnectionError`, or a response with a 5xx status. -/
def retryableStep : Transport → Bool
  | .timeoutExc => true
  | .connectionExc => true
  | .response s _ => decide (500 ≤ s ∧ s < 600)
  | .otherExc => false

/-- A transport outcome on which `fetch_html` gives up at once: a response
with a 4xx status, or a `RequestException` that is neither a timeout, a
connection error nor an `HTTPError`. -/
def terminalStep : Transport → Bool
  | .response s _ => decide (400 ≤ s ∧ s < 500)
  | .otherExc => true
  | _ => false

/-- A transport outcome that is a response with a 5xx status ("a server
that always returns HTTP 5xx"). -/
def serverErrorStep : Transport → Bool
  | .response s _ => decide (500 ≤ s ∧ s < 600)
  | _ => false

/-- A transport outcome that is a failed attempt (raises some
`RequestException`), used by the session variant which does not
discriminate further. -/
def failedStep (t : Transport) : Bool :=
  match runAttempt t with
  | .inl _ => false
  | .inr _ => true

/-!
Validator model (`src/validators.py`).  A raw record is an association list
of string keys to Python-like values.  `DataValidator` is parametric in the
`model_class` it was constructed with, modelled as a function from a raw
record to the outcome of `model_class(**data)`: a validated instance, a
`pydantic.ValidationError` carrying the list of individual field errors, or
some other exception.
-/

/-- A Python value as it appears in a scraped record. -/
inductive Value where
  | str (s : String)
  | num (q : ℚ)
  | boolV (b : Bool)
  | time (t : Int)
  | dict (entries : List (String × Value))
  | listV (vs : List Value)
  | nil
deriving Repr

/-- A raw record: the `Dict[str, Any]` handed to `validate`. -/
abbrev RawRecord : Type := List (String × Value)

/-- One entry of `e.errors()` of a `pydantic.ValidationError`: the field
location and the message. -/
structure FieldError where
  loc : String
  msg : String
deriving Repr, DecidableEq

/-- Outcome of `model_class(**data)`. -/
inductive ConstructResult (M : Type) where
  | ok (m : M)
  | vErr (errors : List FieldError)
  | otherExc

/-- The mutable state of a `DataValidator` instance, together with the
`model_class` it was constructed with. -/
structure DataValidator (M : Type) where
  model_class : RawRecord → ConstructResult M
  validation_errors : List (RawRecord × List FieldError)
  valid_count : Nat
  invalid_count : Nat

/-- `DataValidator.__init__`: counters at zero, empty failure list. -/
def DataValidator.init {M : Type} (model_class : RawRecord → ConstructResult M) :
    DataValidator M :=
  ⟨model_class, [], 0, 0⟩

/-- `DataValidator.validate`: try `model_class(**data)`; on success bump
`valid_count` and return the instance; on `ValidationError` bump
`invalid_count` and append `{"data": data, "errors": e.errors()}` to
`validation_errors`; on any other exception bump `invalid_count` only. -/
def DataValidator.validate {M : Type} (v : DataValidator M) (data : RawRecord) :
    Option M × DataValidator M :=
  match v.model_class data with
  | .ok m => (some m, { v with valid_count := v.valid_count + 1 })
  | .vErr errs =>
      (none, { v with
        invalid_count := v.invalid_count + 1,
        validation_errors := v.validation_errors ++ [(data, errs)] })
  | .otherExc => (none, { v with invalid_count := v.invalid_count + 1 })

/-- `DataValidator.validate_batch`: validate each record in order, keeping
the truthy results. -/
def DataValidator.validate_batch {M : Type} (v : DataValidator M) :
    List RawRecord → List M × DataValidator M
  | [] => ([], v)
  | data :: rest =>
    let step := v.validate data
    let tail := step.2.validate_batch rest
    match step.1 with
    | some m => (m :: tail.1, tail.2)
    | none => (tail.1, tail.2)

/-- The dictionary returned by `get_validation_report`. -/
structure Report where
  valid_count : Nat
  invalid_count : Nat
  success_rate : ℚ
  errors : List (RawRecord × List FieldError)

/-- `DataValidator.get_validation_report`. -/
def DataValidator.get_validation_report {M : Type} (v : DataValidator M) :
    Report :=
  { valid_count := v.valid_count
    invalid_count := v.invalid_count
    success_rate :=
      if v.valid_count + v.invalid_count > 0 then
        (v.valid_count : ℚ) / ((v.valid_count : ℚ) + (v.invalid_count : ℚ))
      else 0
    errors := v.validation_errors }

/-- `DataValidator.reset_stats`. -/
def DataValidator.reset_stats {M : Type} (v : DataValidator M) :
    DataValidator M :=
  { v with validation_errors := [], valid_count := 0, invalid_count := 0 }

/-- A call into the validator: either `validate` on one record or
`validate_batch` on a list. -/
inductive Op where
  | one (data : RawRecord)
  | batch (batch : List RawRecord)

/-- How many records an operation submits. -/
def Op.records : Op → Nat
  | .one _ => 1
  | .batch b => b.length

/-- Run one operation for its state effect. -/
def runOp {M : Type} (v : DataValidator M) : Op → DataValidator M
  | .one d => (v.validate d).2
  | .batch b => (v.validate_batch b).2

/-- Run a sequence of `validate` / `validate_batch` calls. -/
def runOps {M : Type} (v : DataValidator M) (ops : List Op) : DataValidator M :=
  ops.foldl runOp v

/-!
`ScrapedDataModel`: the base pydantic model.  Fields in declaration order:
`url : HttpUrl` (required), `title : Optional[str]` with `max_length=500`
and a stripping validator, `content : Optional[str]`, `timestamp : datetime`
defaulting to `datetime.now()`, `metadata : Dict[str, Any]` defaulting to
`{}`.  `Config.extra = "allow"` keeps undeclared input keys on the
instance.  Field errors are collected across all fields; a non-empty
collection raises `ValidationError`.
-/

/-- The errors of one field check as they enter `e.errors()`. -/
def errsOf {α : Type} : Except FieldError α → List FieldError
  | .ok _ => []
  | .error f => [f]

end Scraper
namespace Scraper

/-- A `model_class` argument whose construction raises an exception that is
not a `pydantic.ValidationError` — the input that exercises the
`except Exception` path of `DataValidator.validate` (`validate` is generic
in `model_class`, so such a class is a legitimate argument). -/
def explodingModel : RawRecord → ConstructResult Unit := fun _ => .otherExc

theorem fetchGo_exit (env : Nat → Transport) (r : Nat) (b : ℚ) (a : Nat) (s : List ℚ)
    (h : ¬ a < r) : fetchGo env r b a s = ⟨.ret none, a, s⟩ := by
  rw [fetchGo, dif_neg h]

theorem fetchGo_success (env : Nat → Transport) (r : Nat) (b : ℚ) (a : Nat) (s : List ℚ)
    (st : Nat) (t : String) (hlt : a < r) (henv : env a = .response st t)
    (hst : ¬ (400 ≤ st ∧ st < 600)) :
    fetchGo env r b a s = ⟨.ret (some t), a + 1, s⟩ := by
  rw [fetchGo, dif_pos hlt, henv]
  simp [runAttempt, hst]

theorem fetchGo_4xx (env : Nat → Transport) (r : Nat) (b : ℚ) (a : Nat) (s : List ℚ)
    (st : Nat) (t : String) (hlt : a < r) (henv : env a = .response st t)
    (h4 : 400 ≤ st) (h5 : st < 500) :
    fetchGo env r b a s = ⟨.ret none, a + 1, s⟩ := by
  have h6 : st < 600 := by omega
  rw [fetchGo, dif_pos hlt, henv]
  simp [runAttempt, isTimeout, isHTTPError, excStatus, h4, h5, h6]

theorem fetchGo_retry (env : Nat → Transport) (r : Nat) (b : ℚ) (a : Nat) (s : List ℚ)
    (hlt : a < r) (hc : a < r - 1) (hr : retryableStep (env a) = true) :
    fetchGo env r b a s =
      fetchGo env r b (a + 1) (s ++ [backoffDelay b a]) := by
  rw [fetchGo, dif_pos hlt]
  cases henv : env a with
  | response st t =>
    rw [henv] at hr
    simp only [retryableStep, decide_eq_true_eq] at hr
    simp [runAttempt, isTimeout, isHTTPError, excStatus, hc,
      (by omega : 400 ≤ st ∧ st < 600)]
    exact fun h5 => absurd h5 (by omega)
  | timeoutExc => simp [runAttempt, isTimeout, hc]
  | connectionExc => simp [runAttempt, isTimeout, isHTTPError, isConnectionError, hc]
  | otherExc => rw [henv] at hr; simp [retryableStep] at hr

theorem fetchGo_retry_last (env : Nat → Transport) (r : Nat) (b : ℚ) (a : Nat) (s : List ℚ)
    (hlt : a < r) (hc : ¬ a < r - 1) (hr : retryableStep (env a) = true) :
    fetchGo env r b a s = ⟨.ret none, a + 1, s⟩ := by
  rw [fetchGo, dif_pos hlt]
  cases henv : env a with
  | response st t =>
    rw [henv] at hr
    simp only [retryableStep, decide_eq_true_eq] at hr
    simp [runAttempt, isTimeout, isHTTPError, excStatus, hc,
      (by omega : 400 ≤ st ∧ st < 600)]
  | timeoutExc => simp [runAttempt, isTimeout, hc]
  | connectionExc => simp [runAttempt, isTimeout, isHTTPError, isConnectionError, hc]
  | otherExc => rw [henv] at hr; simp [retryableStep] at hr

theorem fetchGo_other (env : Nat → Transport) (r : Nat) (b : ℚ) (a : Nat) (s : List ℚ)
    (hlt : a < r) (henv : env a = .otherExc) :
    fetchGo env r b a s = ⟨.ret none, a + 1, s⟩ := by
  rw [fetchGo, dif_pos hlt, henv]
  simp [runAttempt, isTimeout, isHTTPError, isConnectionError, isRequestException]

end Scraper
namespace Scraper

theorem fetchGo_cases (env : Nat → Transport) (r : Nat) (b : ℚ) (a : Nat) (s : List ℚ)
    (hlt : a < r) :
    (∃ st t, env a = .response st t ∧ ¬ (400 ≤ st ∧ st < 600) ∧
        fetchGo env r b a s = ⟨.ret (some t), a + 1, s⟩) ∨
    (∃ st t, env a = .response st t ∧ 400 ≤ st ∧ st < 500 ∧
        fetchGo env r b a s = ⟨.ret none, a + 1, s⟩) ∨
    (retryableStep (env a) = true ∧ a < r - 1 ∧
        fetchGo env r b a s = fetchGo env r b (a + 1) (s ++ [backoffDelay b a])) ∨
    (retryableStep (env a) = true ∧ ¬ a < r - 1 ∧
        fetchGo env r b a s = ⟨.ret none, a + 1, s⟩) ∨
    (env a = .otherExc ∧ fetchGo env r b a s = ⟨.ret none, a + 1, s⟩) := by
  cases henv : env a with
  | response st t =>
    by_cases h46 : 400 ≤ st ∧ st < 600
    · by_cases h45 : st < 500
      · exact Or.inr (Or.inl ⟨st, t, rfl, by omega, h45,
          fetchGo_4xx env r b a s st t hlt henv (by omega) h45⟩)
      · have hretry : retryableStep (Transport.response st t) = true := by
          simp only [retryableStep, decide_eq_true_eq]; omega
        have hretry' : retryableStep (env a) = true := by rw [henv]; exact hretry
        by_cases hc : a < r - 1
        · exact Or.inr (Or.inr (Or.inl ⟨hretry, hc,
            fetchGo_retry env r b a s hlt hc hretry'⟩))
        · exact Or.inr (Or.inr (Or.inr (Or.inl ⟨hretry, hc,
            fetchGo_retry_last env r b a s hlt hc hretry'⟩)))
    · exact Or.inl ⟨st, t, rfl, h46, fetchGo_success env r b a s st t hlt henv h46⟩
  | timeoutExc =>
    have hretry' : retryableStep (env a) = true := by rw [henv]; rfl
    by_cases hc : a < r - 1
    · exact Or.inr (Or.inr (Or.inl ⟨rfl, hc,
        fetchGo_retry env r b a s hlt hc hretry'⟩))
    · exact Or.inr (Or.inr (Or.inr (Or.inl ⟨rfl, hc,
        fetchGo_retry_last env r b a s hlt hc hretry'⟩)))
  | connectionExc =>
    have hretry' : retryableStep (env a) = true := by rw [henv]; rfl
    by_cases hc : a < r - 1
    · exact Or.inr (Or.inr (Or.inl ⟨rfl, hc,
        fetchGo_retry env r b a s hlt hc hretry'⟩))
    · exact Or.inr (Or.inr (Or.inr (Or.inl ⟨rfl, hc,
        fetchGo_retry_last env r b a s hlt hc hretry'⟩)))
  | otherExc =>
    exact Or.inr (Or.inr (Or.inr (Or.inr ⟨rfl, fetchGo_other env r b a s hlt henv⟩)))

end Scraper
namespace Scraper

theorem fetchGo_isRet (env : Nat → Transport) (r : Nat) (b : ℚ) :
    ∀ (n a : Nat) (s : List ℚ), r - a ≤ n →
      (fetchGo env r b a s).outcome.isRet = true := by
  intro n
  induction n with
  | zero =>
    intro a s hn
    rw [fetchGo_exit env r b a s (by omega)]; rfl
  | succ n ih =>
    intro a s hn
    by_cases hlt : a < r
    · rcases fetchGo_cases env r b a s hlt with
        ⟨st, t, _, _, he⟩ | ⟨st, t, _, _, _, he⟩ | ⟨_, hc, he⟩ | ⟨_, _, he⟩ | ⟨_, he⟩ <;>
        rw [he]
      · rfl
      · rfl
      · exact ih (a + 1) _ (by omega)
      · rfl
      · rfl
    · rw [fetchGo_exit env r b a s hlt]; rfl

theorem fetchGo_attempts_le (env : Nat → Transport) (r : Nat) (b : ℚ) :
    ∀ (n a : Nat) (s : List ℚ), r - a ≤ n → a ≤ r →
      (fetchGo env r b a s).attemptsMade ≤ r := by
  intro n
  induction n with
  | zero =>
    intro a s hn ha
    rw [fetchGo_exit env r b a s (by omega)]; exact ha
  | succ n ih =>
    intro a s hn ha
    by_cases hlt : a < r
    · rcases fetchGo_cases env r b a s hlt with
        ⟨st, t, _, _, he⟩ | ⟨st, t, _, _, _, he⟩ | ⟨_, hc, he⟩ | ⟨_, _, he⟩ | ⟨_, he⟩ <;>
        rw [he]
      · exact hlt
      · exact hlt
      · exact ih (a + 1) _ (by omega) (by omega)
      · exact hlt
      · exact hlt
    · rw [fetchGo_exit env r b a s hlt]; exact ha

theorem fetchGo_all_5xx (env : Nat → Transport) (r : Nat) (b : ℚ)
    (h5 : ∀ i, serverErrorStep (env i) = true) :
    ∀ (n a : Nat) (s : List ℚ), r - a ≤ n → a < r →
      (fetchGo env r b a s).outcome = .ret none ∧
      (fetchGo env r b a s).attemptsMade = r := by
  intro n
  induction n with
  | zero => intro a s hn hlt; omega
  | succ n ih =>
    intro a s hn hlt
    have hsrv := h5 a
    rcases fetchGo_cases env r b a s hlt with
      ⟨st, t, henv, hst, he⟩ | ⟨st, t, henv, h4, h45, he⟩ |
      ⟨_, hc, he⟩ | ⟨_, hc, he⟩ | ⟨henv, he⟩
    · rw [henv] at hsrv
      simp only [serverErrorStep, decide_eq_true_eq] at hsrv
      omega
    · rw [henv] at hsrv
      simp only [serverErrorStep, decide_eq_true_eq] at hsrv
      omega
    · rw [he]; exact ih (a + 1) _ (by omega) (by omega)
    · rw [he]
      constructor
      · rfl
      · simp; omega
    · rw [henv] at hsrv
      simp [serverErrorStep] at hsrv

end Scraper
namespace Scraper

theorem failedStep_inr (t : Transport) (hf : failedStep t = true) :
    ∃ e, runAttempt t = .inr e := by
  cases h : runAttempt t with
  | inl v => simp [failedStep, h] at hf
  | inr e => exact ⟨e, rfl⟩

theorem sessionGo_exit (env : Nat → Transport) (r a : Nat) (s : List ℚ)
    (h : ¬ a < r) : fetchSessionGo env r a s = ⟨.ret none, a, s⟩ := by
  rw [fetchSessionGo, dif_neg h]

theorem sessionGo_fail_last (env : Nat → Transport) (r a : Nat) (s : List ℚ)
    (hlt : a < r) (heq : a = r - 1) (hf : failedStep (env a) = true) :
    fetchSessionGo env r a s = ⟨.ret none, a + 1, s⟩ := by
  obtain ⟨e, he⟩ := failedStep_inr _ hf
  rw [fetchSessionGo, dif_pos hlt, he]
  simp [isRequestException, heq]

theorem sessionGo_fail_retry (env : Nat → Transport) (r a : Nat) (s : List ℚ)
    (hlt : a < r) (hne : a ≠ r - 1) (hf : failedStep (env a) = true) :
    fetchSessionGo env r a s =
      fetchSessionGo env r (a + 1) (s ++ [backoffDelay (3 / 10) a]) := by
  obtain ⟨e, he⟩ := failedStep_inr _ hf
  rw [fetchSessionGo, dif_pos hlt, he]
  simp [isRequestException, hne, backoffDelay]

theorem sessionGo_all_failed (env : Nat → Transport) (r : Nat)
    (hf : ∀ i, failedStep (env i) = true) :
    ∀ (n a : Nat) (s : List ℚ), r - a ≤ n → a < r →
      (fetchSessionGo env r a s).outcome = .ret none ∧
      (fetchSessionGo env r a s).attemptsMade = r := by
  intro n
  induction n with
  | zero => intro a s hn hlt; omega
  | succ n ih =>
    intro a s hn hlt
    by_cases heq : a = r - 1
    · rw [sessionGo_fail_last env r a s hlt heq (hf a)]
      exact ⟨rfl, by simp; omega⟩
    · rw [sessionGo_fail_retry env r a s hlt heq (hf a)]
      exact ih (a + 1) _ (by omega) (by omega)

/-- C6: for every sequence of transport outcomes (success, timeout,
connection failure, HTTP error, other transport error), `fetch_html`
terminates with a normal return of the text or of `None`; no exception
propagates to the caller. -/
theorem fetch_html_never_raises (env : Nat → Transport) (retries : Nat)
    (backoff_factor : ℚ) :
    (fetch_html env retries backoff_factor).outcome.isRet = true :=
  fetchGo_isRet env retries backoff_factor retries 0 [] (by omega)

/-- C2: with `retries = N > 1`, an attempt that receives an HTTP response
with status in 400..499 makes `fetch_html` return `None` immediately after
that attempt: the attempt counter advances by exactly one and the sleep
list is unchanged, regardless of remaining attempts; in particular a 4xx on
the first attempt ends the whole call after one attempt with no sleep. -/
theorem client_error_aborts_immediately (env : Nat → Transport)
    (retries : Nat) (backoff_factor : ℚ) (st : Nat) (t : String)
    (hN : 1 < retries) (h4 : 400 ≤ st) (h5 : st < 500) :
    (∀ a s, a < retries → env a = .response st t →
        fetchGo env retries backoff_factor a s = ⟨.ret none, a + 1, s⟩) ∧
    (env 0 = .response st t →
        fetch_html env retries backoff_factor = ⟨.ret none, 1, []⟩) := by
  constructor
  · intro a s hlt henv
    exact fetchGo_4xx env retries backoff_factor a s st t hlt henv h4 h5
  · intro henv
    exact fetchGo_4xx env retries backoff_factor 0 [] st t (by omega) henv h4 h5

theorem client_error_aborts_immediately_check :
    fetch_html (fun _ => Transport.response 404 "nf") 3 (3 / 10) =
      ⟨.ret none, 1, []⟩ :=
  (client_error_aborts_immediately (fun _ => Transport.response 404 "nf") 3
    (3 / 10) 404 "nf" (by omega) (by omega) (by omega)).2 rfl

/-- C4: on every retryable failure (timeout, connection failure, HTTP 5xx)
at attempt index `a` with retries remaining, the delay slept before retry
`a + 1` is `backoff_factor * 2 ^ a`; this delay is monotonically
non-decreasing in `a` when `backoff_factor > 0`, and is zero when
`backoff_factor = 0`. -/
theorem exponential_backoff_delay :
    (∀ (env : Nat → Transport) (retries : Nat) (backoff_factor : ℚ) a s,
        a + 1 < retries → retryableStep (env a) = true →
        fetchGo env retries backoff_factor a s =
          fetchGo env retries backoff_factor (a + 1)
            (s ++ [backoffDelay backoff_factor a])) ∧
    (∀ (backoff_factor : ℚ) a, 0 < backoff_factor →
        backoffDelay backoff_factor a ≤ backoffDelay backoff_factor (a + 1)) ∧
    (∀ a, backoffDelay 0 a = 0) := by
  refine ⟨?_, ?_, ?_⟩
  · intro env retries b a s hc hr
    exact fetchGo_retry env retries b a s (by omega) (by omega) hr
  · intro b a hb
    unfold backoffDelay
    have h2 : (2 : ℚ) ^ a ≤ 2 ^ (a + 1) := by
      apply pow_le_pow_right₀ _ (Nat.le_succ a)
      norm_num
    exact mul_le_mul_of_nonneg_left h2 hb.le
  · intro a
    simp [backoffDelay]

theorem exponential_backoff_delay_check :
    fetchGo (fun _ => Transport.timeoutExc) 3 (1 / 2) 0 [] =
      fetchGo (fun _ => Transport.timeoutExc) 3 (1 / 2) 1 [backoffDelay (1 / 2) 0] ∧
    backoffDelay (1 / 2) 0 ≤ backoffDelay (1 / 2) 1 ∧
    backoffDelay 0 5 = 0 := by
  refine ⟨?_, ?_, ?_⟩
  · have h := exponential_backoff_delay.1 (fun _ => Transport.timeoutExc) 3
      (1 / 2) 0 [] (by omega) rfl
    simpa using h
  · exact exponential_backoff_delay.2.1 (1 / 2) 0 (by norm_num)
  · exact exponential_backoff_delay.2.2 5

/-- C5: `fetch_html` with `retries = N` makes at most `N` attempts for any
outcome sequence; against a server always answering 5xx it makes exactly
`N` attempts and returns `None`; and on a terminal first failure (4xx or
other transport error) it makes exactly one attempt. -/
theorem attempt_budget :
    (∀ (env : Nat → Transport) (retries : Nat) (backoff_factor : ℚ),
        (fetch_html env retries backoff_factor).attemptsMade ≤ retries) ∧
    (∀ (env : Nat → Transport) (retries : Nat) (backoff_factor : ℚ),
        1 ≤ retries → (∀ i, serverErrorStep (env i) = true) →
        (fetch_html env retries backoff_factor).outcome = .ret none ∧
        (fetch_html env retries backoff_factor).attemptsMade = retries) ∧
    (∀ (env : Nat → Transport) (retries : Nat) (backoff_factor : ℚ),
        1 ≤ retries → terminalStep (env 0) = true →
        (fetch_html env retries backoff_factor).attemptsMade = 1 ∧
        (fetch_html env retries backoff_factor).outcome = .ret none) := by
  refine ⟨?_, ?_, ?_⟩
  · intro env r b
    exact fetchGo_attempts_le env r b r 0 [] (by omega) (by omega)
  · intro env r b hr h5
    exact fetchGo_all_5xx env r b h5 r 0 [] (by omega) (by omega)
  · intro env r b hr ht
    cases henv : env 0 with
    | response st t =>
      rw [henv] at ht
      simp only [terminalStep, decide_eq_true_eq] at ht
      rw [show fetch_html env r b = fetchGo env r b 0 [] from rfl,
        fetchGo_4xx env r b 0 [] st t (by omega) henv ht.1 ht.2]
      exact ⟨rfl, rfl⟩
    | timeoutExc => rw [henv] at ht; simp [terminalStep] at ht
    | connectionExc => rw [henv] at ht; simp [terminalStep] at ht
    | otherExc =>
      rw [show fetch_html env r b = fetchGo env r b 0 [] from rfl,
        fetchGo_other env r b 0 [] (by omega) henv]
      exact ⟨rfl, rfl⟩

theorem attempt_budget_check :
    (fetch_html (fun _ => Transport.response 503 "e") 3 0).outcome = .ret none ∧
    (fetch_html (fun _ => Transport.response 503 "e") 3 0).attemptsMade = 3 ∧
    (fetch_html (fun _ => Transport.response 404 "nf") 3 0).attemptsMade = 1 := by
  refine ⟨?_, ?_, ?_⟩
  · exact (attempt_budget.2.1 _ 3 0 (by omega) (fun i => by decide)).1
  · exact (attempt_budget.2.1 _ 3 0 (by omega) (fun i => by decide)).2
  · exact (attempt_budget.2.2 _ 3 0 (by omega) (by decide)).1

/-- C8: `fetch_html_with_session` treats every failure, a 4xx response
included, as retryable: a failed attempt that is not the last steps to the
next attempt after sleeping `0.3 * 2 ^ attempt` (the backoff formula with
factor 3/10), and when every attempt fails it returns `None` only after
making all `retries` attempts. -/
theorem session_fetch_retries_all_failures :
    (∀ (env : Nat → Transport) (retries a : Nat) (s : List ℚ),
        a < retries → a ≠ retries - 1 → failedStep (env a) = true →
        fetchSessionGo env retries a s =
          fetchSessionGo env retries (a + 1)
            (s ++ [backoffDelay (3 / 10) a])) ∧
    (∀ (env : Nat → Transport) (retries : Nat),
        1 ≤ retries → (∀ i, failedStep (env i) = true) →
        (fetch_html_with_session env retries).outcome = .ret none ∧
        (fetch_html_with_session env retries).attemptsMade = retries) := by
  constructor
  · intro env r a s hlt hne hf
    exact sessionGo_fail_retry env r a s hlt hne hf
  · intro env r hr hf
    exact sessionGo_all_failed env r hf r 0 [] (by omega) (by omega)

theorem session_fetch_retries_all_failures_check :
    fetchSessionGo (fun _ => Transport.response 404 "nf") 3 0 [] =
      fetchSessionGo (fun _ => Transport.response 404 "nf") 3 1
        ([] ++ [backoffDelay (3 / 10) 0]) ∧
    (fetch_html_with_session (fun _ => Transport.response 404 "nf") 3).outcome =
      .ret none ∧
    (fetch_html_with_session (fun _ => Transport.response 404 "nf") 3).attemptsMade = 3 := by
  refine ⟨?_, ?_, ?_⟩
  · exact session_fetch_retries_all_failures.1 _ 3 0 [] (by omega) (by omega) (by decide)
  · exact (session_fetch_retries_all_failures.2 _ 3 (by omega) (fun i => by decide)).1
  · exact (session_fetch_retries_all_failures.2 _ 3 (by omega) (fun i => by decide)).2

end Scraper
namespace Scraper

theorem validate_count_sum {M : Type} (v : DataValidator M) (d : RawRecord) :
    (v.validate d).2.valid_count + (v.validate d).2.invalid_count =
      v.valid_count + v.invalid_count + 1 := by
  rcases h : v.model_class d with m | errs | _ <;>
    simp [DataValidator.validate, h] <;> omega

theorem validate_model_class {M : Type} (v : DataValidator M) (d : RawRecord) :
    (v.validate d).2.model_class = v.model_class := by
  rcases h : v.model_class d with m | errs | _ <;>
    simp [DataValidator.validate, h]

theorem validate_batch_state {M : Type} (v : DataValidator M) (d : RawRecord)
    (rest : List RawRecord) :
    (v.validate_batch (d :: rest)).2 = ((v.validate d).2.validate_batch rest).2 := by
  rcases h : (v.validate d).1 with _ | m <;>
    simp [DataValidator.validate_batch, h]

theorem validate_batch_count_sum {M : Type} (l : List RawRecord) :
    ∀ v : DataValidator M,
      (v.validate_batch l).2.valid_count + (v.validate_batch l).2.invalid_count =
        v.valid_count + v.invalid_count + l.length := by
  induction l with
  | nil => intro v; simp [DataValidator.validate_batch]
  | cons d rest ih =>
    intro v
    rw [validate_batch_state]
    have h1 := validate_count_sum v d
    have h2 := ih (v.validate d).2
    simp only [List.length_cons]
    omega

theorem validate_batch_model_class {M : Type} (l : List RawRecord) :
    ∀ v : DataValidator M, (v.validate_batch l).2.model_class = v.model_class := by
  induction l with
  | nil => intro v; simp [DataValidator.validate_batch]
  | cons d rest ih =>
    intro v
    rw [validate_batch_state, ih, validate_model_class]

theorem runOps_count_sum {M : Type} (ops : List Op) :
    ∀ v : DataValidator M,
      (runOps v ops).valid_count + (runOps v ops).invalid_count =
        v.valid_count + v.invalid_count + (ops.map Op.records).sum := by
  induction ops with
  | nil => intro v; simp [runOps]
  | cons op rest ih =>
    intro v
    have hstep : runOps v (op :: rest) = runOps (runOp v op) rest := rfl
    rw [hstep]
    have h2 := ih (runOp v op)
    have h1 : (runOp v op).valid_count + (runOp v op).invalid_count =
        v.valid_count + v.invalid_count + op.records := by
      cases op with
      | one d => exact validate_count_sum v d
      | batch b => exact validate_batch_count_sum b v
    simp only [List.map_cons, List.sum_cons]
    omega

theorem runOps_model_class {M : Type} (ops : List Op) :
    ∀ v : DataValidator M, (runOps v ops).model_class = v.model_class := by
  induction ops with
  | nil => intro v; rfl
  | cons op rest ih =>
    intro v
    have hstep : runOps v (op :: rest) = runOps (runOp v op) rest := rfl
    rw [hstep, ih]
    cases op with
    | one d => exact validate_model_class v d
    | batch b => exact validate_batch_model_class b v

/-- C3: after any sequence of `validate` / `validate_batch` calls since
construction or since the last `reset_stats`, `valid_count + invalid_count`
equals the total number of records submitted: every record is classified
into exactly one outcome. -/
theorem counts_partition_records :
    (∀ (M : Type) (model_class : RawRecord → ConstructResult M) (ops : List Op),
        (runOps (DataValidator.init model_class) ops).valid_count +
          (runOps (DataValidator.init model_class) ops).invalid_count =
          (ops.map Op.records).sum) ∧
    (∀ (M : Type) (v : DataValidator M) (ops : List Op),
        (runOps v.reset_stats ops).valid_count +
          (runOps v.reset_stats ops).invalid_count =
          (ops.map Op.records).sum) := by
  constructor
  · intro M mc ops
    have h := runOps_count_sum ops (DataValidator.init mc)
    simpa [DataValidator.init] using h
  · intro M v ops
    have h := runOps_count_sum ops v.reset_stats
    simpa [DataValidator.reset_stats] using h

/-- C9: after any sequence of `validate`/`validate_batch` calls,
`reset_stats` zeroes both counters, empties the failure list, leaves the
configured `model_class` unchanged, and the report taken immediately
afterwards has `success_rate = 0`. -/
theorem reset_stats_clears (M : Type) (v0 : DataValidator M) (ops : List Op) :
    ((runOps v0 ops).reset_stats).valid_count = 0 ∧
    ((runOps v0 ops).reset_stats).invalid_count = 0 ∧
    ((runOps v0 ops).reset_stats).validation_errors = [] ∧
    ((runOps v0 ops).reset_stats).model_class = v0.model_class ∧
    ((runOps v0 ops).reset_stats).get_validation_report.success_rate = 0 := by
  refine ⟨rfl, rfl, rfl, ?_, ?_⟩
  · have h := runOps_model_class ops v0
    simpa [DataValidator.reset_stats] using h
  · simp [DataValidator.get_validation_report, DataValidator.reset_stats]

end Scraper
namespace Scraper

/-- C1 counterexample: the claim that every rejection appends a
`ValidationFailure` entry fails on the `except Exception` path — validating
the empty record against a model class whose constructor raises a
non-`ValidationError` increments `invalid_count` to 1 yet leaves
`validation_errors` empty, so this rejection is absent from the report. -/
theorem rejection_entry_counterexample :
    (((DataValidator.init explodingModel).validate []).2.invalid_count = 1) ∧
    (((DataValidator.init explodingModel).validate []).2.validation_errors = []) :=
  ⟨rfl, rfl⟩

/-- C1 amended: every call to `validate` that rejects a record increments
`invalid_count` exactly once; a `ValidationFailure` entry (the original raw
record plus every individual violation) is appended when the rejection
comes from a schema `ValidationError`, while a rejection caused by an
unexpected internal error increments the count without appending an entry;
acceptance changes neither counter nor list. -/
theorem rejection_bookkeeping {M : Type} (v : DataValidator M) (data : RawRecord) :
    (∀ errs, v.model_class data = .vErr errs →
        (v.validate data).2.invalid_count = v.invalid_count + 1 ∧
        (v.validate data).2.validation_errors = v.validation_errors ++ [(data, errs)]) ∧
    (v.model_class data = .otherExc →
        (v.validate data).2.invalid_count = v.invalid_count + 1 ∧
        (v.validate data).2.validation_errors = v.validation_errors) ∧
    (∀ m, v.model_class data = .ok m →
        (v.validate data).2.invalid_count = v.invalid_count ∧
        (v.validate data).2.validation_errors = v.validation_errors) := by
  rcases h : v.model_class data with m | errs | _ <;>
    simp [DataValidator.validate, h]

theorem rejection_bookkeeping_check :
    ((DataValidator.init explodingModel).validate [("k", Value.str "v")]).2.invalid_count =
      (DataValidator.init explodingModel).invalid_count + 1 ∧
    ((DataValidator.init explodingModel).validate [("k", Value.str "v")]).2.validation_errors =
      (DataValidator.init explodingModel).validation_errors :=
  (rejection_bookkeeping (DataValidator.init explodingModel)
    [("k", Value.str "v")]).2.1 rfl

end Scraper
namespace Scraper

theorem errsOf_nil {α : Type} (e : Except FieldError α) (h : errsOf e = []) :
    ∃ a, e = .ok a := by
  cases e with
  | error f => simp [errsOf] at h
  | ok a => exact ⟨a, rfl⟩

end Scraper
